import Mathlib

/-!
Verification of the Mnet wind-turbine protocol driver (file `mnet.py`)
against its natural-language specification.

Bytes are modelled as natural numbers below 256.  Python performs its
arithmetic on unbounded signed integers and reduces with `% 256` at the
end of each expression; since `%` is a ring homomorphism and the bitwise
operations only depend on the low 8 bits of their operands when the
result is reduced `% 256`, every Python expression `e % 256` over byte
inputs is embedded here as a `Nat` expression in which each subtraction
`a - b` (whose Python value may be negative) is rendered as
`(a + 256 - b) % 256`, the representative of the same residue class.
-/

set_option maxRecDepth 100000

namespace Mnet

/-- Key derivation (`Mnet.encode_serial`): from the four big-endian serial
bytes `p0 p1 p2 p3` (each below 256, as produced by `struct.unpack`),
derive the 5-byte obfuscation key.  Source:
`result[0] = ((p2 & p1) - p2) % 256`, `result[1] = (p1 + p0 + p3) % 256`,
`result[2] = (p3 + p0 ^ p1) % 256` (Python precedence: the addition binds
tighter than the xor), `result[3] = ((p3 & p1) + p2) % 256`,
`result[4] = ((p3 | p2) - p3) % 256`.  The first entry is the only one
whose Python value can be negative, hence the `+ 256`. -/
def encode_serial (p0 p1 p2 p3 : Nat) : List Nat :=
  [((p2 &&& p1) + 256 - p2) % 256,
   (p0 + p1 + p3) % 256,
   ((p3 + p0) ^^^ p1) % 256,
   ((p3 &&& p1) + p2) % 256,
   ((p3 ||| p2) - p3) % 256]

/-- Loop body of `Mnet.encode`: the source iterates over the plaintext with
a running index `i` and the previous plaintext byte, computing
`out[i] = ((enc_serial[i % 5] - previous_byte ^ byte) + 0x34) % 256`
(Python precedence: the subtraction binds tighter than the xor) and then
setting `previous_byte = byte`. -/
def encodeGo (k : List Nat) : Nat → Nat → List Nat → List Nat
  | _, _, [] => []
  | i, prev, b :: rest =>
    ((((k.getD (i % 5) 0 + 256 - prev) % 256) ^^^ b) + 0x34) % 256 ::
      encodeGo k (i + 1) b rest

/-- `Mnet.encode`: obfuscate `data` with the 5-byte key `enc_serial`,
starting with `previous_byte = 0`. -/
def encode (data enc_serial : List Nat) : List Nat :=
  encodeGo enc_serial 0 0 data

/-- Loop body of `Mnet.decode`: the source computes
`tmp = (byte - 0x34 ^ enc_serial[i % 5] - tmp) % 256`, which by Python
precedence is `((byte - 0x34) ^ (enc_serial[i % 5] - tmp)) % 256`, and
stores `out[i] = tmp`; the recovered byte is chained into the next step. -/
def decodeGo (k : List Nat) : Nat → Nat → List Nat → List Nat
  | _, _, [] => []
  | i, tmp, b :: rest =>
    (((b + 256 - 0x34) % 256) ^^^ ((k.getD (i % 5) 0 + 256 - tmp) % 256)) % 256 ::
      decodeGo k (i + 1)
        ((((b + 256 - 0x34) % 256) ^^^ ((k.getD (i % 5) 0 + 256 - tmp) % 256)) % 256) rest

/-- `Mnet.decode`: deobfuscate `data` with the 5-byte key `enc_serial`,
starting with `tmp = 0`. -/
def decode (data enc_serial : List Nat) : List Nat :=
  decodeGo enc_serial 0 0 data

/-- Decode transform exactly as the specification states it (for claim C2):
`out[i] = ((in[i] - 0x34) XOR k[i mod 5]) - prev  (mod 256)` with `prev`
the previously recovered plaintext byte — the subtraction of `prev`
applied after the xor. -/
def decode_spec_C2claimGo (k : List Nat) : Nat → Nat → List Nat → List Nat
  | _, _, [] => []
  | i, prev, b :: rest =>
    ((((b + 256 - 0x34) % 256) ^^^ k.getD (i % 5) 0) + 256 - prev) % 256 ::
      decode_spec_C2claimGo k (i + 1)
        (((((b + 256 - 0x34) % 256) ^^^ k.getD (i % 5) 0) + 256 - prev) % 256) rest

/-- The specification decode formula of claim C2, with `prev = 0` initially. -/
def decode_spec_C2claim (data k : List Nat) : List Nat :=
  decode_spec_C2claimGo k 0 0 data

/-- Decode transform as claim C2 must be amended to match the code:
`out[i] = (in[i] - 0x34) XOR (k[i mod 5] - prev)  (mod 256)` — the
subtraction of `prev` is applied to the key byte before the xor. -/
def decode_spec_C2amendGo (k : List Nat) : Nat → Nat → List Nat → List Nat
  | _, _, [] => []
  | i, prev, b :: rest =>
    ((b + 256 - 0x34) ^^^ (k.getD (i % 5) 0 + 256 - prev)) % 256 ::
      decode_spec_C2amendGo k (i + 1)
        (((b + 256 - 0x34) ^^^ (k.getD (i % 5) 0 + 256 - prev)) % 256) rest

/-- The amended decode formula of claim C2, with `prev = 0` initially. -/
def decode_spec_C2amend (data k : List Nat) : List Nat :=
  decode_spec_C2amendGo k 0 0 data

/-- Kinds of Python exceptions that the embedded operations can raise.
`structError` stands for `struct.error` (buffer too small for an unpack),
`valueError` for `ValueError`, `typeError` for `TypeError`,
`unboundLocalError` for the `UnboundLocalError` raised when a `match`
statement without a wildcard case leaves `value` unassigned,
`unicodeDecodeError` for a failed `bytes.decode` call, `overflowError`
for `int.to_bytes` overflow, and `transportError` for any exception
raised by the byte transport (`ConnectionError`, timeout, framing). -/
inductive PyError where
  | structError
  | valueError
  | typeError
  | unboundLocalError
  | unicodeDecodeError
  | overflowError
  | transportError
deriving DecidableEq, Repr

/-- `MnetPacket._escape_data`: `data.replace(b"\xff", b"\xff\xff")` doubles
every `0xFF` byte of the payload. -/
def escape_data : List Nat → List Nat
  | [] => []
  | b :: rest => if b = 255 then 255 :: 255 :: escape_data rest else b :: escape_data rest

/-- Modelled from the spec: one shift step of CRC-16/XMODEM (polynomial
`0x1021`, no reflection).  The source delegates the checksum to the
external `crc` library (`Calculator(Crc16.XMODEM)`), whose code is not in
this repository; the spec pins the algorithm and gives test vectors. -/
def crc16_shift (c : Nat) : Nat :=
  if c &&& 0x8000 ≠ 0 then ((c <<< 1) ^^^ 0x1021) &&& 0xFFFF else (c <<< 1) &&& 0xFFFF

/-- Modelled from the spec: feed one byte into the CRC-16/XMODEM state. -/
def crc16_byte (crc b : Nat) : Nat :=
  (crc16_shift)^[8] (crc ^^^ (b <<< 8))

/-- Modelled from the spec: CRC-16/XMODEM over a byte string, with initial
value `0x0000` and no final xor. -/
def crc16 (data : List Nat) : Nat :=
  data.foldl crc16_byte 0

/-- `bytes(MnetPacket(...))`: the wire form of an outbound frame.  The
source stuffs the payload (`real_data`), prepends
`destination + source + packet_type + len(real_data).to_bytes(1) + real_data`
(`self.packet`), computes the CRC over that logical packet, and emits
`SOH + packet + crc.to_bytes(2, "big") + EOT`.  `len(...).to_bytes(1)`
raises `OverflowError` when the stuffed payload exceeds 255 bytes. -/
def mnetPacketBytes (dst src : Nat) (ptype data : List Nat) : Except PyError (List Nat) :=
  let real_data := escape_data data
  if 256 ≤ real_data.length then .error .overflowError
  else
    let packet := dst :: src :: (ptype ++ real_data.length :: real_data)
    let crc := crc16 packet
    .ok (0x01 :: packet ++ [crc / 256, crc % 256, 0x04])

/-- Python values flowing through the typed-value decoder: `None`, `int`,
`float`, `str` (kept as its ASCII byte values) and `datetime` (kept as
seconds from the 1980-01-01 UTC epoch).  Python floats are modelled as
exact rationals; no claim below depends on binary rounding. -/
inductive PyVal where
  | vNone
  | vInt (i : Int)
  | vFloat (q : ℚ)
  | vStr (s : List Nat)
  | vDatetime (secondsFrom1980 : ℚ)
deriving DecidableEq, Repr

/-- Big-endian value of a byte list. -/
def beNat (l : List Nat) : Nat := l.foldl (fun a b => a * 256 + b) 0

/-- `struct.unpack_from` of an `n`-byte big-endian unsigned field at offset
`off`: requires the buffer to hold at least `off + n` bytes, otherwise
`struct.error`; bytes beyond the field are ignored. -/
def readBE (data : List Nat) (off n : Nat) : Except PyError Nat :=
  if off + n ≤ data.length then .ok (beNat ((data.drop off).take n))
  else .error .structError

/-- Reinterpret an unsigned `bits`-wide value as two's-complement signed. -/
def toSigned (bits v : Nat) : Int :=
  if v < 2 ^ (bits - 1) then (v : Int) else (v : Int) - 2 ^ bits

/-- `str.rstrip("\x00")`: drop trailing NUL bytes. -/
def rstripNulls (s : List Nat) : List Nat :=
  (s.reverse.dropWhile (· = 0)).reverse

/-- The `match data_type` statement of `Mnet.decode_data`: extract the raw
body at offset 5.  Types `0x01`, `0x02` and `0x0A` are signed 8-bit,
`0x03` signed 16-bit, `0x04` unsigned 16-bit, `0x05` signed 32-bit,
`0x06` and `0x07` unsigned 32-bit, `0x09` an ASCII string of `length`
bytes with trailing NULs stripped (`bytes.decode("ascii")` fails on any
byte above `0x7F`), `0x00` no body; anything else raises `ValueError`. -/
def extract_raw (data_in : List Nat) (data_type length : Nat) : Except PyError PyVal :=
  match data_type with
  | 0x0 => .ok .vNone
  | 0x1 | 0xa => (readBE data_in 5 1).map (fun v => .vInt (toSigned 8 v))
  | 0x2 => (readBE data_in 5 1).map (fun v => .vInt (toSigned 8 v))
  | 0x3 => (readBE data_in 5 2).map (fun v => .vInt (toSigned 16 v))
  | 0x4 => (readBE data_in 5 2).map (fun v => .vInt (v : Int))
  | 0x5 => (readBE data_in 5 4).map (fun v => .vInt (toSigned 32 v))
  | 0x6 => (readBE data_in 5 4).map (fun v => .vInt (v : Int))
  | 0x7 => (readBE data_in 5 4).map (fun v => .vInt (v : Int))
  | 0x9 =>
    if 5 + length ≤ data_in.length then
      if ((data_in.drop 5).take length).all (· < 128) then
        .ok (.vStr (rstripNulls ((data_in.drop 5).take length)))
      else .error .unicodeDecodeError
    else .error .structError
  | _ => .error .valueError

/-- Python's `float(x)` builtin on the values reachable in
`Mnet.decode_data`: exact on `int`, identity on `float`, `TypeError` on
`None` and `datetime`.  On strings it is modelled only for unsigned
decimal-digit strings (mapped to their value) with every other string
mapped to `ValueError`; the builtin also accepts signs, decimal points
and exponents, but no claim below evaluates those cases. -/
def pyFloatOfStr (s : List Nat) : Except PyError ℚ :=
  if s ≠ [] ∧ s.all (fun c => 48 ≤ c ∧ c ≤ 57) then
    .ok ((s.foldl (fun a c => a * 10 + (c - 48)) 0 : Nat) : ℚ)
  else .error .valueError

/-- Python `float(x)` over `PyVal` (see `pyFloatOfStr` for strings). -/
def pyFloat : PyVal → Except PyError ℚ
  | .vInt i => .ok (i : ℚ)
  | .vFloat q => .ok q
  | .vNone => .error .typeError
  | .vStr s => pyFloatOfStr s
  | .vDatetime _ => .error .typeError

/-- The `match conversion_type` statement of `Mnet.decode_data`.  The
source match has no wildcard case: an unmatched conversion type leaves
the local `value` unassigned, and the later read of `value` raises
`UnboundLocalError`.  Cases `0x01`-`0x05` call `float(raw_data)` before
branching, so a `None` or non-numeric-string raw raises there. -/
def apply_conversion (conversion_type conversion_value : Nat) (raw_data : PyVal) :
    Except PyError PyVal :=
  match conversion_type with
  | 0x0 => .ok raw_data
  | 0x1 | 0x5 => (pyFloat raw_data).map (fun q => .vFloat (q / (10 : ℚ) ^ conversion_value))
  | 0x2 => (pyFloat raw_data).map (fun q =>
      if conversion_value ≠ 0 then .vFloat (q / (conversion_value : ℚ)) else .vFloat q)
  | 0x3 => (pyFloat raw_data).map (fun q =>
      if conversion_value ≠ 0 then .vFloat (q * (conversion_value : ℚ)) else .vFloat q)
  | 0x4 => (pyFloat raw_data).map (fun q => .vFloat (q * (10 : ℚ) ^ conversion_value))
  | _ => .error .unboundLocalError

/-- `Mnet.DATA_IDS_NOT_TIMESTAMP`: main-ids whose data-type tag is `0x06`
but whose value is a magnitude, never converted to a datetime. -/
def DATA_IDS_NOT_TIMESTAMP : List Nat :=
  [0x9cae, 0xc739, 0xc73a, 0xc79c, 0xc79d, 0xc79e]

/-- `data_id not in self.DATA_IDS_NOT_TIMESTAMP`: a `None` id (the default
argument) is not in the set, so the test is true for it. -/
def not_in_deny (data_id : Option Nat) : Bool :=
  match data_id with
  | some i => ! DATA_IDS_NOT_TIMESTAMP.contains i
  | none => true

/-- `Mnet.timestamp_to_datetime` applied to the converted value: the
numeric is interpreted as seconds from the 1980-01-01 UTC epoch.  Python
would raise `OverflowError` for values outside `datetime`'s range; no
claim below evaluates the function there, so the range check is not
modelled. -/
def timestamp_to_datetime : PyVal → Except PyError PyVal
  | .vInt i => .ok (.vDatetime (i : ℚ))
  | .vFloat q => .ok (.vDatetime q)
  | _ => .error .typeError

/-- `Mnet.decode_data`: parse the 5-byte typed-value header
`(data_type, conversion_type, conversion_value_be, length)` (fewer than 5
bytes is a `struct.error`), extract the raw body, apply the conversion,
and convert to a datetime only when `data_type == 6` and the `data_id` is
not in the deny list.  Returns the `(data_type, value)` pair. -/
def decode_data (data_in : List Nat) (data_id : Option Nat) :
    Except PyError (Nat × PyVal) :=
  if data_in.length < 5 then .error .structError
  else
    match extract_raw data_in (data_in.getD 0 0) (data_in.getD 4 0) with
    | .error e => .error e
    | .ok raw_data =>
      match apply_conversion (data_in.getD 1 0)
          (data_in.getD 2 0 * 256 + data_in.getD 3 0) raw_data with
      | .error e => .error e
      | .ok value =>
        if data_in.getD 0 0 == 6 && not_in_deny data_id then
          match timestamp_to_datetime value with
          | .error e => .error e
          | .ok v => .ok (data_in.getD 0 0, v)
        else .ok (data_in.getD 0 0, value)

/-- Loop of `Mnet.decode_multiple_data`: one iteration per declared
element.  The loop breaks cleanly (returning what was accumulated) when
fewer than 9 bytes remain before the next element header
(`if pos + 9 > len(data_in): break`); otherwise it unpacks
`main_id(2), sub_id(2)` and the element length from the 9-byte header,
passes the typed-value slice `data_in[pos+4 : pos+9+length]` (Python
slicing truncates silently) to `decode_data` with the main-id, and
advances by `9 + length`.  An exception from `decode_data` propagates. -/
def decode_multiple_go (data_in : List Nat) :
    Nat → Nat → List (Nat × Nat × (Nat × PyVal)) →
      Except PyError (List (Nat × Nat × (Nat × PyVal)))
  | 0, _, acc => .ok acc.reverse
  | n + 1, pos, acc =>
    if data_in.length < pos + 9 then .ok acc.reverse
    else
      match decode_data ((data_in.drop (pos + 4)).take
          (5 + data_in.getD (pos + 8) 0))
          (some (data_in.getD pos 0 * 256 + data_in.getD (pos + 1) 0)) with
      | .error e => .error e
      | .ok dec =>
        decode_multiple_go data_in n (pos + 9 + data_in.getD (pos + 8) 0)
          ((data_in.getD pos 0 * 256 + data_in.getD (pos + 1) 0,
            data_in.getD (pos + 2) 0 * 256 + data_in.getD (pos + 3) 0,
            dec) :: acc)

/-- `Mnet.decode_multiple_data`: an empty input returns `[]`; otherwise the
first byte is the element count and the loop starts at offset 1. -/
def decode_multiple_data (data_in : List Nat) :
    Except PyError (List (Nat × Nat × (Nat × PyVal))) :=
  if data_in = [] then .ok []
  else decode_multiple_go data_in (data_in.getD 0 0) 1 []

/-- Python `int(x)` on the values reachable as an event code: exact on
`int`, truncation toward zero on `float`, `TypeError` on `None` and
`datetime`; on strings modelled only for unsigned decimal-digit strings
(no claim below evaluates the other string forms the builtin accepts). -/
def pyInt : PyVal → Except PyError Int
  | .vInt i => .ok i
  | .vFloat q => .ok (Int.tdiv q.num q.den)
  | .vStr s =>
    if s ≠ [] ∧ s.all (fun c => 48 ≤ c ∧ c ≤ 57) then
      .ok ((s.foldl (fun a c => a * 10 + (c - 48)) 0 : Nat) : Int)
    else .error .valueError
  | .vNone => .error .typeError
  | .vDatetime _ => .error .typeError

/-- The `Event` record built by the batched event-stack reader:
`(index, code, timestamp, text)`. -/
structure PyEvent where
  index : Nat
  code : Int
  timestamp : PyVal
  text : PyVal
deriving DecidableEq, Repr

/-- Python `str.strip` whitespace set: space, tab, LF, VT, FF, CR. -/
def isPySpace (c : Nat) : Bool :=
  c == 32 || c == 9 || c == 10 || c == 11 || c == 12 || c == 13

/-- `str.strip()`: remove leading and trailing whitespace bytes. -/
def stripSpaces (s : List Nat) : List Nat :=
  ((s.dropWhile isPySpace).reverse.dropWhile isPySpace).reverse

/-- `text.strip() if isinstance(text, str) else str(text)`: strings are
stripped; the `str(...)` textual repr of a non-string is not modelled
byte-exactly (no claim inspects it), the value is kept as it is. -/
def pyStrippedText : PyVal → PyVal
  | .vStr s => .vStr (stripSpaces s)
  | v => v

/-- The result-assembly loop of `Mnet.get_events_batch` (after the batched
`request_multiple_data` call): for each slot `i`, stop when fewer than
`3*i + 3` results remain (`if base_idx + 2 >= len(results): break`); skip
the slot when its code is `None` (`if code is None: continue`); otherwise
build `Event(index=i, code=int(code), timestamp, text)`.  The fuel
argument counts the remaining loop iterations of `range(max_batch)`. -/
def parse_events_go (results : List PyVal) : Nat → Nat → Except PyError (List PyEvent)
  | 0, _ => .ok []
  | fuel + 1, i =>
    if results.length ≤ 3 * i + 2 then .ok []
    else if results.getD (3 * i) .vNone = .vNone then
      parse_events_go results fuel (i + 1)
    else
      match pyInt (results.getD (3 * i) .vNone) with
      | .error e => .error e
      | .ok c =>
        match parse_events_go results fuel (i + 1) with
        | .error e => .error e
        | .ok evs =>
          .ok (⟨i, c, results.getD (3 * i + 1) .vNone,
            pyStrippedText (results.getD (3 * i + 2) .vNone)⟩ :: evs)

/-- `Mnet.get_events_batch` restricted to its pure result-parsing part:
the batch size is `min(limit, 33)` and slots are scanned from index 0. -/
def get_events_batch_parse (limit : Nat) (results : List PyVal) :
    Except PyError (List PyEvent) :=
  parse_events_go results (min limit 33) 0

/-- `Mnet.LOGIN_131_GAIA_WIND`: the 20-byte vendor-product tag. -/
def LOGIN_131_GAIA_WIND : List Nat :=
  [0x31, 0x33, 0x31, 0x20, 0x66, 0x6b, 0x59, 0x75, 0x29, 0x29,
   0x31, 0x32, 0x32, 0x32, 0x31, 0x51, 0x51, 0x61, 0x61, 0x00]

/-- `Mnet.LOGIN_PACKET_ID`. -/
def LOGIN_PACKET_ID : Nat := 0x7b

/-- `Mnet.REQ_LOGIN`: packet type `0x13A1`. -/
def REQ_LOGIN : List Nat := [0x13, 0xa1]

/-- `Mnet.create_login_packet_data`: `struct.pack` of the 20-byte vendor
tag, then twelve single bytes: two `0xFF` pads, the four big-endian bytes
of the login packet id (obtained by shifting it right by 24, 16 and 8
bits), the constant `5`, and five `0x00` bytes. -/
def create_login_packet_data : List Nat :=
  LOGIN_131_GAIA_WIND ++
    [0xff, 0xff,
     (LOGIN_PACKET_ID >>> 0x18) % 256, (LOGIN_PACKET_ID >>> 0x10) % 256,
     (LOGIN_PACKET_ID >>> 8) % 256, LOGIN_PACKET_ID % 256,
     5, 0, 0, 0, 0, 0]

/-- `Mnet.login`: the frame that the login operation sends, as a function
of the destination byte and the cached 5-byte key — the login descriptor
is obfuscated with the key (`self.encode(self.create_login_packet_data(),
self.encoded_serial)`) and handed to `send_packet` with packet type
`REQ_LOGIN`; `create_packet` uses the client id `0x01` as source. -/
def login_frame (dst : Nat) (key : List Nat) : Except PyError (List Nat) :=
  mnetPacketBytes dst 0x01 REQ_LOGIN (encode create_login_packet_data key)

/-- The `AlarmRecord` named tuple:
`(sub_id, last_occurred, description, has_occurred)`. -/
structure AlarmRecord where
  sub_id : Nat
  last_occurred : PyVal
  description : PyVal
  has_occurred : Bool
deriving DecidableEq, Repr

/-- `Mnet.DATA_ID_ALARM_LAST_OCCURRED` as a wire id. -/
def DATA_ID_ALARM_LAST_OCCURRED : Nat := 0xc73b

/-- `Mnet.DATA_ID_STATUS_TEXT` as a wire id. -/
def DATA_ID_STATUS_TEXT : Nat := 0xc73c

/-- `hasattr(timestamp, "year") and timestamp.year == 2032`: only a
datetime has a `year` attribute; a datetime on our 1980-01-01 UTC epoch
falls in calendar year 2032 exactly when its seconds value lies in
`[18993 * 86400, 19359 * 86400)` — there are 18993 days (13 of the 52
years being leap years) from 1980-01-01 to 2032-01-01, and 2032 itself
has 366 days. -/
def isYear2032 : PyVal → Bool
  | .vDatetime q => decide (1640995200 ≤ q ∧ q < 1672617600)
  | _ => false

/-- The response-processing tail of `Mnet.request_data`: decrypt the
response payload with the session key
(`self.decode(response.data, self.encoded_serial)`) and typed-value
decode it with the wire id, keeping the value of the pair. -/
def request_data_value (respData key : List Nat) (data_id : Nat) :
    Except PyError PyVal :=
  match decode_data (decode respData key) (some data_id) with
  | .error e => .error e
  | .ok tv => .ok tv.2

/-- The `try` body of `Mnet.get_alarm_record`: fetch the last-occurrence
timestamp from `(0xC73B, sub_id)` and the description from
`(0xC73C, sub_id)`; a `None` value for either returns `None`;
`has_occurred` is false when the timestamp is a datetime in year 2032.
The two transport interactions are supplied as `Except` values: an
`.error` stands for any exception raised while sending the request or
reading the response frame; an `.ok` carries the response payload bytes,
whose decryption and decoding may themselves raise. -/
def get_alarm_record_body (key : List Nat) (sub_id : Nat)
    (r1 r2 : Except PyError (List Nat)) : Except PyError (Option AlarmRecord) :=
  match r1 with
  | .error e => .error e
  | .ok b1 =>
    match request_data_value b1 key DATA_ID_ALARM_LAST_OCCURRED with
    | .error e => .error e
    | .ok ts =>
      if ts = .vNone then .ok none
      else
        match r2 with
        | .error e => .error e
        | .ok b2 =>
          match request_data_value b2 key DATA_ID_STATUS_TEXT with
          | .error e => .error e
          | .ok de =>
            if de = .vNone then .ok none
            else .ok (some ⟨sub_id, ts, pyStrippedText de, ! isYear2032 ts⟩)

/-- `Mnet.get_alarm_record`: the whole body runs inside
`try ... except Exception: return None`, so every internal error is
caught and mapped to `None`. -/
def get_alarm_record (key : List Nat) (sub_id : Nat)
    (r1 r2 : Except PyError (List Nat)) : Option AlarmRecord :=
  match get_alarm_record_body key sub_id r1 r2 with
  | .error _ => none
  | .ok r => r

/-- A masked natural is its low 8 bits. -/
theorem and_255_mod (a : Nat) : a &&& 255 = a % 256 := by
  have h := Nat.and_pow_two_sub_one_eq_mod a 8
  norm_num at h
  exact h

/-- Reduction `% 256` commutes with xor. -/
theorem xor_mod_256 (a b : Nat) : (a ^^^ b) % 256 = (a % 256) ^^^ (b % 256) := by
  rw [← and_255_mod, ← and_255_mod, ← and_255_mod, Nat.and_xor_distrib_right]

/-- Xor of two bytes is a byte. -/
theorem xor_lt_256 {a b : Nat} (ha : a < 256) (hb : b < 256) : a ^^^ b < 256 := by
  have h : a ^^^ b < 2 ^ 8 :=
    Nat.xor_lt_two_pow (by norm_num at ha ⊢; exact ha) (by norm_num at hb ⊢; exact hb)
  norm_num at h
  exact h

/-- Every `getD` lookup in a list of bytes with default `0` is a byte. -/
theorem getD_lt_256 (k : List Nat) (hk : ∀ x ∈ k, x < 256) (j : Nat) :
    k.getD j 0 < 256 := by
  induction k generalizing j with
  | nil => simp [List.getD]
  | cons a t ih =>
    cases j with
    | zero => exact hk a (List.mem_cons_self a t)
    | succ j =>
      simpa [List.getD] using ih (fun x hx => hk x (List.mem_cons_of_mem a hx)) j

/-- One decode step undoes one encode step: the ciphertext byte
`((kd ^^^ b) + 0x34) % 256` (with `kd` the reduced key-minus-prev value)
decodes back to `b`. -/
theorem roundtrip_step (kb prev b : Nat) (hk : kb < 256) (hb : b < 256) :
    ((((((((kb + 256 - prev) % 256) ^^^ b) + 0x34) % 256) + 256 - 0x34) % 256) ^^^
        ((kb + 256 - prev) % 256)) % 256 = b := by
  have hkd : (kb + 256 - prev) % 256 < 256 := Nat.mod_lt _ (by norm_num)
  have hX : ((kb + 256 - prev) % 256) ^^^ b < 256 := xor_lt_256 hkd hb
  have h1 : (((((kb + 256 - prev) % 256) ^^^ b) + 0x34) % 256 + 256 - 0x34) % 256 =
      ((kb + 256 - prev) % 256) ^^^ b := by omega
  rw [h1, Nat.xor_comm ((kb + 256 - prev) % 256) b, Nat.xor_cancel_right,
    Nat.mod_eq_of_lt hb]

/-- The decode loop inverts the encode loop from any common state. -/
theorem decodeGo_encodeGo (k : List Nat) (hk : ∀ x ∈ k, x < 256) :
    ∀ (b : List Nat) (i prev : Nat), (∀ x ∈ b, x < 256) →
      decodeGo k i prev (encodeGo k i prev b) = b := by
  intro b
  induction b with
  | nil => intro i prev _; rfl
  | cons b0 rest ih =>
    intro i prev hb
    have hb0 : b0 < 256 := hb b0 (List.mem_cons_self b0 rest)
    have hrest : ∀ x ∈ rest, x < 256 := fun x hx => hb x (List.mem_cons_of_mem b0 hx)
    have hkb : k.getD (i % 5) 0 < 256 := getD_lt_256 k hk (i % 5)
    simp only [encodeGo, decodeGo]
    rw [roundtrip_step (k.getD (i % 5) 0) prev b0 hkb hb0]
    exact congrArg (List.cons b0) (ih (i + 1) b0 hrest)

/-- Every entry of a derived key is a byte. -/
theorem encode_serial_lt_256 (p0 p1 p2 p3 : Nat) :
    ∀ x ∈ encode_serial p0 p1 p2 p3, x < 256 := by
  intro x hx
  simp only [encode_serial, List.mem_cons, List.mem_singleton] at hx
  rcases hx with h | h | h | h | h | h
  all_goals first
    | (subst h; exact Nat.mod_lt _ (by norm_num))
    | exact absurd h (by simp)

/-- C1: for every byte string `b` and every 5-byte key derived by
`encode_serial` from any 4-byte serial number, decoding the encoding of
`b` under that key gives back `b`, with all arithmetic taken mod 256. -/
theorem C1_decode_encode_roundtrip (b : List Nat) (p0 p1 p2 p3 : Nat)
    (hb : ∀ x ∈ b, x < 256)
    (h0 : p0 < 256) (h1 : p1 < 256) (h2 : p2 < 256) (h3 : p3 < 256) :
    decode (encode b (encode_serial p0 p1 p2 p3)) (encode_serial p0 p1 p2 p3) = b :=
  decodeGo_encodeGo (encode_serial p0 p1 p2 p3)
    (encode_serial_lt_256 p0 p1 p2 p3) b 0 0 hb

/-- C1 witness: the round trip at the concrete ASCII plaintext
`Hello, World!` under the key derived from serial `01 02 03 04`. -/
theorem C1_decode_encode_roundtrip_witness :
    decode (encode [72, 101, 108, 108, 111, 44, 32, 87, 111, 114, 108, 100, 33]
        (encode_serial 1 2 3 4)) (encode_serial 1 2 3 4) =
      [72, 101, 108, 108, 111, 44, 32, 87, 111, 114, 108, 100, 33] :=
  C1_decode_encode_roundtrip
    [72, 101, 108, 108, 111, 44, 32, 87, 111, 114, 108, 100, 33] 1 2 3 4
    (by decide) (by decide) (by decide) (by decide) (by decide)

/-- C2 counterexample: on the ciphertext `35 35` under the key derived from
serial `00 00 00 00` (which is `00 00 00 00 00`), the decode routine of the
code disagrees with the formula stated in the specification, in which the
subtraction of `prev` is applied after the xor: the code yields `01 FE`
while the stated formula yields `01 00`. -/
theorem C2_decode_formula_counterexample :
    decode [0x35, 0x35] (encode_serial 0 0 0 0) ≠
      decode_spec_C2claim [0x35, 0x35] (encode_serial 0 0 0 0) := by
  decide

/-- C2 amended: for every ciphertext and every key, the decode operation
computes output byte `i` as `(in[i] - 0x34) XOR (k[i mod 5] - prev)`, all
mod 256, where `prev` is 0 for `i = 0` and the previously recovered
plaintext byte thereafter; the subtraction of `prev` is applied to the key
byte before the xor, not after it. -/
theorem C2_decode_formula_amended (data k : List Nat) :
    decode data k = decode_spec_C2amend data k := by
  suffices h : ∀ (d : List Nat) (i tmp : Nat),
      decodeGo k i tmp d = decode_spec_C2amendGo k i tmp d by
    exact h data 0 0
  intro d
  induction d with
  | nil => intro i tmp; rfl
  | cons b rest ih =>
    intro i tmp
    have hstep : (((b + 256 - 0x34) % 256) ^^^ ((k.getD (i % 5) 0 + 256 - tmp) % 256)) % 256 =
        ((b + 256 - 0x34) ^^^ (k.getD (i % 5) 0 + 256 - tmp)) % 256 := by
      rw [xor_mod_256 (b + 256 - 0x34) (k.getD (i % 5) 0 + 256 - tmp)]
      exact Nat.mod_eq_of_lt (xor_lt_256 (Nat.mod_lt _ (by norm_num))
        (Nat.mod_lt _ (by norm_num)))
    simp only [decodeGo, decode_spec_C2amendGo, hstep]
    exact congrArg (List.cons _)
      (ih (i + 1) (((b + 256 - 0x34) ^^^ (k.getD (i % 5) 0 + 256 - tmp)) % 256))

/-- C3 counterexample: `encode_serial` applied to the serial bytes
`01 02 03 04` does not give the key claimed by the specification: the
first key byte is `0xFF`, not `0x00` (the specification substituted
`p2 = 0x02` instead of `p2 = 0x03` into its own derivation rule). -/
theorem C3_encode_serial_counterexample :
    encode_serial 1 2 3 4 ≠ [0x00, 0x07, 0x07, 0x03, 0x03] := by
  decide

/-- The CRC model reproduces all six checksum test vectors of the spec. -/
theorem crc16_spec_vectors :
    crc16 [0x02, 0x01, 0x0c, 0x28, 0x02, 0x9c, 0x43] = 0x57A4 ∧
    crc16 [0x02, 0x01, 0x0c, 0x2e, 0x00] = 0x62BF ∧
    crc16 [0x02, 0x01, 0x0c, 0x32, 0x02, 0x00, 0x01] = 0x11A8 ∧
    crc16 [] = 0x0000 ∧
    crc16 [0xff] = 0x1EF0 ∧
    crc16 [0xff, 0xff, 0xff, 0xff] = 0x99CF := by
  decide

/-- Byte stuffing doubles exactly the `0xFF` bytes, elementwise. -/
theorem escape_data_flatMap (payload : List Nat) :
    escape_data payload =
      payload.flatMap (fun b => if b = 255 then [255, 255] else [b]) := by
  induction payload with
  | nil => rfl
  | cons b rest ih =>
    by_cases hb : b = 255 <;> simp [escape_data, hb, ih]

/-- C4: for every destination byte, source byte, 2-byte type and payload
whose stuffed form fits in 255 bytes, the frame builder emits exactly
`SOH, dst, src, type, L, stuffed, crc_be, EOT`, where `stuffed` doubles
every `0xFF` byte of the payload, `L` is the stuffed length and `crc` is
CRC-16/XMODEM over `dst, src, type, L, stuffed`; in particular the
wind-speed request `dst=0x02, src=0x01, type=0x0C28, payload=9C 43 00 00`
serializes to `01 02 01 0C 28 04 9C 43 00 00 AF C3 04`. -/
theorem C4_frame_layout (dst src t1 t2 : Nat) (payload : List Nat)
    (hd : dst < 256) (hs : src < 256) (h1 : t1 < 256) (h2 : t2 < 256)
    (hp : ∀ x ∈ payload, x < 256)
    (hlen : (escape_data payload).length ≤ 255) :
    (mnetPacketBytes dst src [t1, t2] payload =
      .ok ([0x01, dst, src, t1, t2, (escape_data payload).length] ++
        escape_data payload ++
        [crc16 ([dst, src, t1, t2, (escape_data payload).length] ++
          escape_data payload) / 256,
         crc16 ([dst, src, t1, t2, (escape_data payload).length] ++
          escape_data payload) % 256, 0x04])) ∧
    escape_data payload =
      payload.flatMap (fun b => if b = 255 then [255, 255] else [b]) ∧
    mnetPacketBytes 0x02 0x01 [0x0C, 0x28] [0x9C, 0x43, 0x00, 0x00] =
      .ok [0x01, 0x02, 0x01, 0x0C, 0x28, 0x04, 0x9C, 0x43, 0x00, 0x00,
        0xAF, 0xC3, 0x04] := by
  refine ⟨?_, escape_data_flatMap payload, by rfl⟩
  simp only [mnetPacketBytes, if_neg (by omega : ¬ 256 ≤ (escape_data payload).length)]
  simp [List.cons_append]

/-- C4 witness: the layout theorem applied to the concrete wind-speed
request of the spec. -/
theorem C4_frame_layout_witness :
    mnetPacketBytes 0x02 0x01 [0x0C, 0x28] [0x9C, 0x43, 0x00, 0x00] =
      .ok [0x01, 0x02, 0x01, 0x0C, 0x28, 0x04, 0x9C, 0x43, 0x00, 0x00,
        0xAF, 0xC3, 0x04] :=
  (C4_frame_layout 0x02 0x01 0x0C 0x28 [0x9C, 0x43, 0x00, 0x00]
    (by decide) (by decide) (by decide) (by decide) (by decide) (by decide)).2.2

/-- Inversion for a successful `Except.map`. -/
theorem except_map_ok {α β ε : Type} (f : α → β) (x : Except ε α) (b : β)
    (h : x.map f = .ok b) : ∃ a, x = .ok a ∧ b = f a := by
  cases x with
  | error e => exact Except.noConfusion h
  | ok a =>
    refine ⟨a, rfl, ?_⟩
    injection h with h2
    exact h2.symm

/-- Raw extraction never produces a float or a datetime. -/
theorem extract_raw_shape (data_in : List Nat) (data_type length : Nat) (v : PyVal)
    (h : extract_raw data_in data_type length = .ok v) :
    v = .vNone ∨ (∃ i, v = .vInt i) ∨ ∃ s, v = .vStr s := by
  unfold extract_raw at h
  split at h
  · injection h with h2
    exact Or.inl h2.symm
  all_goals try
    (obtain ⟨w, hw, hv⟩ := except_map_ok _ _ _ h
     exact Or.inr (Or.inl ⟨_, hv⟩))
  · split at h
    · split at h
      · injection h with h2
        exact Or.inr (Or.inr ⟨_, h2.symm⟩)
      · exact Except.noConfusion h
    · exact Except.noConfusion h
  · exact Except.noConfusion h

/-- A successful extraction of data-type `0x06` is an unsigned 32-bit
integer. -/
theorem extract_raw_six (data_in : List Nat) (length : Nat) (v : PyVal)
    (h : extract_raw data_in 6 length = .ok v) : ∃ i, v = .vInt i := by
  obtain ⟨w, hw, hv⟩ :=
    except_map_ok (fun v => PyVal.vInt (v : Int)) (readBE data_in 5 4) v h
  exact ⟨w, hv⟩

/-- A successful conversion returns the raw value or a float. -/
theorem apply_conversion_shape (c cv : Nat) (raw v : PyVal)
    (h : apply_conversion c cv raw = .ok v) :
    v = raw ∨ ∃ q, v = .vFloat q := by
  unfold apply_conversion at h
  split at h
  · injection h with h2
    exact Or.inl h2.symm
  all_goals first
    | exact Except.noConfusion h
    | (obtain ⟨q, hq, hv⟩ := except_map_ok _ _ _ h
       refine Or.inr ?_
       rw [hv]
       first
         | exact ⟨_, rfl⟩
         | (split <;> exact ⟨_, rfl⟩))

/-- A successful conversion means the conversion type was a known one. -/
theorem apply_conversion_known (c cv : Nat) (raw v : PyVal)
    (h : apply_conversion c cv raw = .ok v) :
    c ∈ ([0, 1, 2, 3, 4, 5] : List Nat) := by
  unfold apply_conversion at h
  split at h
  all_goals first
    | decide
    | simp at h

/-- A deny-listed id fails the `not in` test. -/
theorem not_in_deny_false (id : Nat) (hid : id ∈ DATA_IDS_NOT_TIMESTAMP) :
    not_in_deny (some id) = false := by
  simp only [DATA_IDS_NOT_TIMESTAMP, List.mem_cons, List.not_mem_nil, or_false] at hid
  rcases hid with h | h | h | h | h | h <;> subst h <;> decide

/-- C5: for every main-id in the timestamp deny-list, `decode_data` never
returns a datetime, and on a payload of data-type `0x06` every successful
decode is numeric (an integer or a float); concretely, raw value 86400
under main-id `0x9CAE` decodes to the number 86400, while the same bytes
under the non-listed main-id `0x9C43` decode to the instant 86400 seconds
after the 1980-01-01 UTC epoch, i.e. 1980-01-02 00:00:00Z. -/
theorem C5_denylist_numeric :
    (∀ id, id ∈ DATA_IDS_NOT_TIMESTAMP → ∀ d t v,
      decode_data d (some id) = .ok (t, v) →
        (∀ q, v ≠ .vDatetime q) ∧
        (d.getD 0 0 = 6 → (∃ i, v = .vInt i) ∨ ∃ q, v = .vFloat q)) ∧
    decode_data [6, 0, 0, 0, 4, 0, 1, 0x51, 0x80] (some 0x9CAE) =
      .ok (6, .vInt 86400) ∧
    decode_data [6, 0, 0, 0, 4, 0, 1, 0x51, 0x80] (some 0x9C43) =
      .ok (6, .vDatetime 86400) := by
  refine ⟨?_, by rfl, by rfl⟩
  intro id hid d t v h
  unfold decode_data at h
  split at h
  · exact Except.noConfusion h
  · split at h
    · exact Except.noConfusion h
    · rename_i raw_data hraw
      split at h
      · exact Except.noConfusion h
      · rename_i value hval
        split at h
        · rename_i hcond
          rw [not_in_deny_false id hid, Bool.and_false] at hcond
          exact Bool.noConfusion hcond
        · injection h with h2
          injection h2 with ht hv
          subst hv
          constructor
          · intro q hq
            rcases apply_conversion_shape _ _ _ _ hval with hvr | ⟨q2, hq2⟩
            · rw [hvr] at hq
              rcases extract_raw_shape _ _ _ _ hraw with h0 | ⟨i, hi⟩ | ⟨s, hs⟩
              · rw [h0] at hq
                exact PyVal.noConfusion hq
              · rw [hi] at hq
                exact PyVal.noConfusion hq
              · rw [hs] at hq
                exact PyVal.noConfusion hq
            · rw [hq2] at hq
              exact PyVal.noConfusion hq
          · intro h6
            rw [h6] at hraw
            obtain ⟨i, hi⟩ := extract_raw_six _ _ _ hraw
            rcases apply_conversion_shape _ _ _ _ hval with hvr | ⟨q2, hq2⟩
            · exact Or.inl ⟨i, by rw [hvr, hi]⟩
            · exact Or.inr ⟨q2, hq2⟩

/-- C5 witness: the deny-list theorem applied to main-id `0x9CAE` and the
concrete 86400-second payload. -/
theorem C5_denylist_numeric_witness :
    (∀ q, PyVal.vInt 86400 ≠ PyVal.vDatetime q) ∧
    (([6, 0, 0, 0, 4, 0, 1, 0x51, 0x80] : List Nat).getD 0 0 = 6 →
      (∃ i, PyVal.vInt 86400 = PyVal.vInt i) ∨
        ∃ q, PyVal.vInt 86400 = PyVal.vFloat q) :=
  C5_denylist_numeric.1 0x9CAE (by decide) [6, 0, 0, 0, 4, 0, 1, 0x51, 0x80]
    6 (.vInt 86400) (by rfl)

/-- C6 counterexample: a payload with absent raw body (data-type `0x00`)
and conversion-type `0x01` does not leave the value unchanged: the code
calls `float(None)` and raises a `TypeError` instead of returning the
absent value untouched. -/
theorem C6_bypass_counterexample :
    decode_data [0, 1, 0, 0, 0] none = .error .typeError ∧
    decode_data [0, 1, 0, 0, 0] none ≠ .ok (0, .vNone) := by
  refine ⟨rfl, fun h => ?_⟩
  rw [show decode_data [0, 1, 0, 0, 0] none = Except.error PyError.typeError
    from rfl] at h
  exact Except.noConfusion h

/-- Under every known non-identity conversion-type (`0x01`-`0x05`) a
successful conversion yields a float: each of these arms wraps its result
in `float(...)` arithmetic, so the raw value never passes through
unchanged. -/
theorem apply_conversion_float (c cv : Nat) (raw v : PyVal)
    (hc : c ∈ ([1, 2, 3, 4, 5] : List Nat))
    (h : apply_conversion c cv raw = .ok v) : ∃ q, v = .vFloat q := by
  simp only [List.mem_cons, List.not_mem_nil, or_false] at hc
  rcases hc with rfl | rfl | rfl | rfl | rfl
  · obtain ⟨q, hq, hv⟩ := except_map_ok
      (fun q => PyVal.vFloat (q / (10 : ℚ) ^ cv)) (pyFloat raw) v h
    exact ⟨_, hv⟩
  · obtain ⟨q, hq, hv⟩ := except_map_ok
      (fun q => if cv ≠ 0 then PyVal.vFloat (q / (cv : ℚ)) else PyVal.vFloat q)
      (pyFloat raw) v h
    rw [hv]
    split <;> exact ⟨_, rfl⟩
  · obtain ⟨q, hq, hv⟩ := except_map_ok
      (fun q => if cv ≠ 0 then PyVal.vFloat (q * (cv : ℚ)) else PyVal.vFloat q)
      (pyFloat raw) v h
    rw [hv]
    split <;> exact ⟨_, rfl⟩
  · obtain ⟨q, hq, hv⟩ := except_map_ok
      (fun q => PyVal.vFloat (q * (10 : ℚ) ^ cv)) (pyFloat raw) v h
    exact ⟨_, hv⟩
  · obtain ⟨q, hq, hv⟩ := except_map_ok
      (fun q => PyVal.vFloat (q / (10 : ℚ) ^ cv)) (pyFloat raw) v h
    exact ⟨_, hv⟩

/-- C6 amended: every successful `decode_data` used a conversion-type in
`{0x00..0x05}` (an unknown conversion-type always errors, via the
unassigned `value` local); string-valued and absent raw bodies are left
unchanged only under conversion-type `0x00`: under every conversion-type
`0x01`-`0x05` an absent body raises a `TypeError` from `float(None)`, and
a string body that decodes successfully comes out as a float, never as
the unchanged string. -/
theorem C6_conversion_behavior :
    (∀ d id t v, decode_data d id = .ok (t, v) →
      d.getD 1 0 ∈ ([0, 1, 2, 3, 4, 5] : List Nat)) ∧
    (∀ id cv1 cv2 l rest,
      decode_data (0 :: 0 :: cv1 :: cv2 :: l :: rest) id = .ok (0, .vNone)) ∧
    (∀ id cv1 cv2 l (rest : List Nat) (c : Nat),
      c ∈ ([1, 2, 3, 4, 5] : List Nat) →
      decode_data (0 :: c :: cv1 :: cv2 :: l :: rest) id = .error .typeError) ∧
    (∀ id cv1 cv2 (body : List Nat), (∀ x ∈ body, x < 128) →
      decode_data (9 :: 0 :: cv1 :: cv2 :: body.length :: body) id =
        .ok (9, .vStr (rstripNulls body))) ∧
    (∀ id cv1 cv2 l (rest : List Nat) (c t : Nat) (v : PyVal),
      c ∈ ([1, 2, 3, 4, 5] : List Nat) →
      decode_data (9 :: c :: cv1 :: cv2 :: l :: rest) id = .ok (t, v) →
      ∃ q, v = .vFloat q) := by
  refine ⟨?_, ?_, ?_, ?_, ?_⟩
  · intro d id t v h
    unfold decode_data at h
    split at h
    · exact Except.noConfusion h
    · split at h
      · exact Except.noConfusion h
      · rename_i raw_data hraw
        split at h
        · exact Except.noConfusion h
        · rename_i value hval
          exact apply_conversion_known _ _ _ _ hval
  · intro id cv1 cv2 l rest
    simp only [decode_data, List.length_cons]
    rw [if_neg (by omega)]
    rfl
  · intro id cv1 cv2 l rest c hc
    simp only [List.mem_cons, List.not_mem_nil, or_false] at hc
    rcases hc with rfl | rfl | rfl | rfl | rfl <;>
      (simp only [decode_data, List.length_cons]
       rw [if_neg (by omega)]
       rfl)
  · intro id cv1 cv2 body hb
    have hext : extract_raw (9 :: 0 :: cv1 :: cv2 :: body.length :: body) 9 body.length =
        .ok (.vStr (rstripNulls body)) := by
      unfold extract_raw
      rw [if_pos (by simp only [List.length_cons]; omega)]
      have hdrop : (9 :: 0 :: cv1 :: cv2 :: body.length :: body).drop 5 = body := rfl
      rw [hdrop, List.take_length]
      rw [if_pos ?_]
      refine List.all_eq_true.mpr ?_
      intro x hx
      exact decide_eq_true (hb x hx)
    have h00 : (9 :: 0 :: cv1 :: cv2 :: body.length :: body : List Nat).getD 0 0 = 9 := rfl
    have h44 : (9 :: 0 :: cv1 :: cv2 :: body.length :: body : List Nat).getD 4 0 =
        body.length := rfl
    simp only [decode_data, List.length_cons]
    rw [if_neg (by omega), h00, h44, hext]
    rfl
  · intro id cv1 cv2 l rest c t v hc h
    unfold decode_data at h
    split at h
    · exact Except.noConfusion h
    · split at h
      · exact Except.noConfusion h
      · rename_i raw_data hraw
        split at h
        · exact Except.noConfusion h
        · rename_i value hval
          split at h
          · rename_i hcond
            have hg0 : (9 :: c :: cv1 :: cv2 :: l :: rest : List Nat).getD 0 0 = 9 := rfl
            rw [hg0] at hcond
            simp at hcond
          · injection h with h2
            injection h2 with ht hv
            subst hv
            have hg1 : (9 :: c :: cv1 :: cv2 :: l :: rest : List Nat).getD 1 0 = c := rfl
            rw [hg1] at hval
            exact apply_conversion_float c _ raw_data value hc hval

/-- C6 witness: the conversion-behavior theorem applied to concrete
payloads (absent body under conversion 0, absent body under conversion 3,
a two-byte string body with a trailing NUL under conversion 0, a digit
string body under conversion 1, and the known-conversion clause at a
successfully decoded payload). -/
theorem C6_conversion_behavior_witness :
    decode_data [0, 0, 0, 0, 0] none = .ok (0, .vNone) ∧
    decode_data [0, 3, 0, 0, 0] none = .error .typeError ∧
    decode_data [9, 0, 0, 0, 2, 65, 0] none = .ok (9, .vStr [65]) ∧
    (∃ q, PyVal.vFloat ((12 : ℚ) / 10 ^ 0) = PyVal.vFloat q) ∧
    ([0, 0, 0, 0, 0] : List Nat).getD 1 0 ∈ ([0, 1, 2, 3, 4, 5] : List Nat) :=
  ⟨C6_conversion_behavior.2.1 none 0 0 0 [],
   C6_conversion_behavior.2.2.1 none 0 0 0 [] 3 (by decide),
   C6_conversion_behavior.2.2.2.1 none 0 0 [65, 0] (by decide),
   C6_conversion_behavior.2.2.2.2 none 0 0 2 [49, 50] 1 9
     (.vFloat ((12 : ℚ) / 10 ^ 0)) (by decide) (by rfl),
   C6_conversion_behavior.1 [0, 0, 0, 0, 0] none 0 .vNone (by rfl)⟩

/-- C3 amended: `encode_serial` on serial bytes `01 02 03 04` yields the key
`FF 07 07 03 03`; in particular the first byte is
`((p2 AND p1) - p2) mod 256 = ((0x03 AND 0x02) - 0x03) mod 256 = 0xFF`,
consistent with the stated derivation rule. -/
theorem C3_encode_serial_amended :
    encode_serial 1 2 3 4 = [0xFF, 0x07, 0x07, 0x03, 0x03] ∧
      ((3 &&& 2) + 256 - 3) % 256 = 0xFF := by
  decide

/-- Obfuscation preserves the payload length. -/
theorem encodeGo_length (k : List Nat) :
    ∀ (b : List Nat) (i p : Nat), (encodeGo k i p b).length = b.length := by
  intro b
  induction b with
  | nil => intro i p; rfl
  | cons b0 rest ih => intro i p; simp [encodeGo, ih]

/-- Stuffing at most doubles the payload length. -/
theorem escape_data_length_le (l : List Nat) :
    (escape_data l).length ≤ 2 * l.length := by
  induction l with
  | nil => simp [escape_data]
  | cons b rest ih =>
    by_cases hb : b = 255 <;> simp [escape_data, hb] <;> omega

/-- C7 counterexample: the login descriptor is not the 33-byte sequence
the claim describes (20-byte tag, two `0xFF`, 4-byte id, `0x05` and six
`0x00` bytes): the source packs only five trailing `0x00` bytes, for a
total of 32 bytes. -/
theorem C7_login_descriptor_counterexample :
    create_login_packet_data ≠
      LOGIN_131_GAIA_WIND ++
        [0xff, 0xff, 0x00, 0x00, 0x00, 0x7b, 0x05,
         0x00, 0x00, 0x00, 0x00, 0x00, 0x00] := by
  decide

/-- C7 amended: `login` builds a fixed 32-byte login descriptor — the
20-byte vendor-product tag, two `0xFF` pad bytes, the 4-byte big-endian
login packet id `0x0000007B`, a constant byte `0x05`, and five `0x00`
bytes — then encrypts it with the derived key and sends it in a frame of
packet type `0x13A1` whose payload is the stuffed ciphertext. -/
theorem C7_login_packet_amended :
    create_login_packet_data =
      LOGIN_131_GAIA_WIND ++ [0xff, 0xff] ++ [0x00, 0x00, 0x00, 0x7b] ++ [0x05] ++
        [0x00, 0x00, 0x00, 0x00, 0x00] ∧
    create_login_packet_data.length = 32 ∧
    ∀ (dst : Nat) (key : List Nat),
      login_frame dst key =
        .ok (0x01 :: dst :: 0x01 :: 0x13 :: 0xa1 ::
          (escape_data (encode create_login_packet_data key)).length ::
          escape_data (encode create_login_packet_data key) ++
          [crc16 (dst :: 0x01 :: 0x13 :: 0xa1 ::
            (escape_data (encode create_login_packet_data key)).length ::
            escape_data (encode create_login_packet_data key)) / 256,
           crc16 (dst :: 0x01 :: 0x13 :: 0xa1 ::
            (escape_data (encode create_login_packet_data key)).length ::
            escape_data (encode create_login_packet_data key)) % 256, 0x04]) := by
  refine ⟨by decide, by decide, ?_⟩
  intro dst key
  have h1 : (encode create_login_packet_data key).length = 32 :=
    (encodeGo_length key create_login_packet_data 0 0).trans (by decide)
  have h2 := escape_data_length_le (encode create_login_packet_data key)
  unfold login_frame
  simp only [mnetPacketBytes, REQ_LOGIN]
  rw [if_neg (by omega)]
  simp [List.cons_append]

/-- The multi-element loop stops cleanly, returning what was accumulated,
whenever fewer than 9 bytes remain before the next element header. -/
theorem decode_multiple_go_stop (d : List Nat) (fuel pos : Nat)
    (acc : List (Nat × Nat × (Nat × PyVal))) (h : d.length < pos + 9) :
    decode_multiple_go d fuel pos acc = .ok acc.reverse := by
  cases fuel with
  | zero => rfl
  | succ n =>
    unfold decode_multiple_go
    rw [if_pos h]

/-- C8: `decode_multiple_data` of an empty body or a zero count is the
empty list, not an error; whenever fewer than 9 bytes remain before the
next element header the loop stops cleanly with what was accumulated;
but an element whose typed body is truncated, as in the concrete
`count=1, declared length 2, body cut off` input, raises a decode error
rather than truncating the result list. -/
theorem C8_decode_multiple_behavior :
    decode_multiple_data [] = .ok [] ∧
    (∀ rest : List Nat, decode_multiple_data (0 :: rest) = .ok []) ∧
    (∀ (c : Nat) (rest : List Nat), rest.length < 9 →
      decode_multiple_data (c :: rest) = .ok []) ∧
    (∀ (d : List Nat) (fuel pos : Nat) (acc : List (Nat × Nat × (Nat × PyVal))),
      d.length < pos + 9 → decode_multiple_go d fuel pos acc = .ok acc.reverse) ∧
    decode_multiple_data [1, 0, 1, 0, 0, 4, 0, 0, 0, 2] = .error .structError := by
  refine ⟨rfl, fun rest => rfl, ?_, ?_, rfl⟩
  · intro c rest h
    have hd : decode_multiple_data (c :: rest) =
        decode_multiple_go (c :: rest) c 1 [] := rfl
    rw [hd]
    exact decode_multiple_go_stop (c :: rest) c 1 []
      (by simp only [List.length_cons]; omega)
  · intro d fuel pos acc h
    exact decode_multiple_go_stop d fuel pos acc h

/-- C8 witness: the stop clauses applied at a short body after the count
byte and at a mid-stream loop state. -/
theorem C8_decode_multiple_behavior_witness :
    decode_multiple_data [5, 1, 2, 3] = .ok [] ∧
    decode_multiple_go [1, 2] 3 0 [(7, 8, (4, PyVal.vNone))] =
      .ok [(7, 8, (4, PyVal.vNone))] :=
  ⟨C8_decode_multiple_behavior.2.2.1 5 [1, 2, 3] (by decide),
   C8_decode_multiple_behavior.2.2.2.1 [1, 2] 3 0 [(7, 8, (4, PyVal.vNone))]
     (by decide)⟩

/-- C8 counterexample: on `01 0001 0000 04 00 0000 02` (count 1, main-id
1, sub-id 0, data-type `0x04`, declared body length 2, body truncated
after the header) `decode_multiple_data` raises a `struct.error` instead
of truncating the result list. -/
theorem C8_truncated_raises_counterexample :
    decode_multiple_data [1, 0, 1, 0, 0, 4, 0, 0, 0, 2] = .error .structError ∧
    decode_multiple_data [1, 0, 1, 0, 0, 4, 0, 0, 0, 2] ≠ .ok [] := by
  refine ⟨rfl, fun h => ?_⟩
  rw [show decode_multiple_data [1, 0, 1, 0, 0, 4, 0, 0, 0, 2] =
    Except.error PyError.structError from rfl] at h
  exact Except.noConfusion h

/-- The event-assembly loop only emits events whose slot lies in range,
with indices at least the current one, strictly increasing, and whose
code slot is not absent. -/
theorem parse_events_go_invariant (results : List PyVal) :
    ∀ (fuel i : Nat) (res : List PyEvent), parse_events_go results fuel i = .ok res →
      (∀ e ∈ res, i ≤ e.index ∧ results.getD (3 * e.index) .vNone ≠ .vNone) ∧
      List.Pairwise (fun a b => a.index < b.index) res := by
  intro fuel
  induction fuel with
  | zero =>
    intro i res h
    injection h with h2
    subst h2
    exact ⟨fun e he => absurd he (List.not_mem_nil e), List.Pairwise.nil⟩
  | succ n ih =>
    intro i res h
    unfold parse_events_go at h
    split at h
    · injection h with h2
      subst h2
      exact ⟨fun e he => absurd he (List.not_mem_nil e), List.Pairwise.nil⟩
    · split at h
      · obtain ⟨h1, h2⟩ := ih (i + 1) res h
        exact ⟨fun e he => ⟨by have := (h1 e he).1; omega, (h1 e he).2⟩, h2⟩
      · rename_i hlen hne
        split at h
        · exact Except.noConfusion h
        · rename_i c hc
          split at h
          · exact Except.noConfusion h
          · rename_i evs hevs
            injection h with h2
            subst h2
            obtain ⟨h1, h2⟩ := ih (i + 1) evs hevs
            refine ⟨?_, ?_⟩
            · intro e he
              rcases List.mem_cons.mp he with he0 | he1
              · subst he0
                exact ⟨Nat.le_refl i, hne⟩
              · have hle := (h1 e he1).1
                exact ⟨by omega, (h1 e he1).2⟩
            · refine List.pairwise_cons.mpr ⟨?_, h2⟩
              intro b hb
              have hlt := (h1 b hb).1
              show i < b.index
              omega

/-- C9 amended: in the batched event-stack read, ordering of slots is
preserved — the returned events have strictly increasing indices and
every returned event comes from a slot whose code field is not absent —
but a slot whose code is absent is merely skipped: slots after it are
still processed, so the batch does not terminate at the first absent
slot. -/
theorem C9_events_batch_order (limit : Nat) (results : List PyVal)
    (res : List PyEvent) (h : get_events_batch_parse limit results = .ok res) :
    List.Pairwise (fun a b => a.index < b.index) res ∧
    ∀ e ∈ res, results.getD (3 * e.index) .vNone ≠ .vNone := by
  obtain ⟨h1, h2⟩ := parse_events_go_invariant results (min limit 33) 0 res h
  exact ⟨h2, fun e he => (h1 e he).2⟩

/-- C9 witness: the ordering theorem applied to a concrete two-slot batch
whose first slot is absent. -/
theorem C9_events_batch_order_witness :
    List.Pairwise (fun a b => a.index < b.index)
      [(⟨1, 7, .vInt 0, .vStr [120]⟩ : PyEvent)] ∧
    ∀ e ∈ [(⟨1, 7, .vInt 0, .vStr [120]⟩ : PyEvent)],
      ([.vNone, .vInt 0, .vStr [], .vInt 7, .vInt 0, .vStr [120]] : List PyVal).getD
        (3 * e.index) .vNone ≠ .vNone :=
  C9_events_batch_order 2 [.vNone, .vInt 0, .vStr [], .vInt 7, .vInt 0, .vStr [120]]
    [(⟨1, 7, .vInt 0, .vStr [120]⟩ : PyEvent)] (by rfl)

/-- C9 counterexample: a two-slot batch whose slot 0 has an absent code
still yields the event of slot 1 — an event with index greater than the
absent slot appears, so the batch does not terminate at the first absent
slot. -/
theorem C9_absent_slot_counterexample :
    get_events_batch_parse 2
        [.vNone, .vInt 0, .vStr [], .vInt 7, .vInt 0, .vStr [120]] =
      .ok [(⟨1, 7, .vInt 0, .vStr [120]⟩ : PyEvent)] ∧
    ([.vNone, .vInt 0, .vStr [], .vInt 7, .vInt 0, .vStr [120]] : List PyVal).getD
        0 .vNone = .vNone :=
  ⟨rfl, rfl⟩

/-- C10: `get_alarm_record` never propagates an exception — every error of
the `try` body yields the return value `None`; in particular a transport
error on the first request and a decode failure on its response both
yield `None`, and two different internal errors produce identical
results, so the caller cannot distinguish an invalid sub-id from an I/O
failure. -/
theorem C10_get_alarm_record_swallows :
    (∀ (key : List Nat) (sub_id : Nat) (r1 r2 : Except PyError (List Nat))
      (e : PyError), get_alarm_record_body key sub_id r1 r2 = .error e →
        get_alarm_record key sub_id r1 r2 = none) ∧
    (∀ (key : List Nat) (sub_id : Nat) (e : PyError)
      (r2 : Except PyError (List Nat)),
        get_alarm_record key sub_id (.error e) r2 = none) ∧
    (∀ (key : List Nat) (sub_id : Nat) (b1 : List Nat)
      (r2 : Except PyError (List Nat)) (e : PyError),
        request_data_value b1 key DATA_ID_ALARM_LAST_OCCURRED = .error e →
        get_alarm_record key sub_id (.ok b1) r2 = none) ∧
    (∀ (key : List Nat) (sub_id : Nat) (e1 e2 : PyError)
      (r2 : Except PyError (List Nat)),
        get_alarm_record key sub_id (.error e1) r2 =
          get_alarm_record key sub_id (.error e2) r2) := by
  refine ⟨?_, ?_, ?_, ?_⟩
  · intro key sub_id r1 r2 e h
    unfold get_alarm_record
    rw [h]
  · intro key sub_id e r2
    rfl
  · intro key sub_id b1 r2 e h
    simp [get_alarm_record, get_alarm_record_body, h]
  · intro key sub_id e1 e2 r2
    rfl

/-- C10 witness: the swallow theorem applied with an empty response body
(whose decryption decodes to a `struct.error`) and with a transport
error; both give `None`. -/
theorem C10_get_alarm_record_swallows_witness :
    get_alarm_record [] 5 (.ok []) (.ok []) = none ∧
    get_alarm_record [] 5 (.error .transportError) (.ok []) = none :=
  ⟨C10_get_alarm_record_swallows.2.2.1 [] 5 [] (.ok []) .structError rfl,
   C10_get_alarm_record_swallows.1 [] 5 (.error .transportError) (.ok [])
     .transportError rfl⟩

end Mnet
